import Mathlib

/-!
Verification of the network-emulation orchestrator in `mininet/net.py`
(classes `Mininet` and `MininetCLI`).  The Python code is shallowly embedded:
dictionaries become association lists, side effects on the registry become
explicit state passing, fatal conditions (`exit(1)` and uncaught Python
exceptions such as `ZeroDivisionError` and `KeyError`) become `Except` errors,
and external effects (running `ping`, `setIP`, process start/stop) become
either an oracle parameter or an event trace.
-/

/-- Fatal outcomes of the orchestrator.  `exit(1)` calls and uncaught Python
exceptions both terminate the process; they are distinguished here so that
theorems can say which abort fired. -/
inductive MnError where
  | parseError
  | anomaly
  | divByZero
  | typeError
  | keyError
  | badController
deriving DecidableEq

/-- Decimal value of a digit run, as Python `int` applied to a digit string. -/
def digitsToNat (ds : List Char) : Nat :=
  ds.foldl (fun n c => 10 * n + (c.toNat - 48)) 0

/-- Strip an expected literal from the front of a character list
(`none` when the literal is not there). -/
def dropLit : List Char → List Char → Option (List Char)
  | [], s => some s
  | _ :: _, [] => none
  | l :: ls, c :: cs => if c = l then dropLit ls cs else none

/-- Attempt the regex `(\d+) packets transmitted, (\d+) received` anchored at
the head of the input.  With a greedy `\d+` followed by a literal space no
backtracking can succeed where maximal munch fails, so taking the maximal
digit run is exact. -/
def matchPingAt (s : List Char) : Option (Nat × Nat) :=
  let p1 := s.span Char.isDigit
  if p1.1 = [] then none else
  match dropLit " packets transmitted, ".data p1.2 with
  | none => none
  | some r2 =>
    let p2 := r2.span Char.isDigit
    if p2.1 = [] then none else
    match dropLit " received".data p2.2 with
    | none => none
    | some _ => some (digitsToNat p1.1, digitsToNat p2.1)

/-- `re.search`: try the pattern at every start position, leftmost first. -/
def searchPing : List Char → Option (Nat × Nat)
  | [] => none
  | c :: cs =>
    match matchPingAt (c :: cs) with
    | some p => some p
    | none => searchPing cs

namespace Mininet

/-- `Mininet._parse_ping`: parse ping output and return packets sent and
received; an output with no match is a fatal parse error (`exit(1)`). -/
def _parse_ping (pingOutput : String) : Except MnError (Nat × Nat) :=
  match searchPing pingOutput.data with
  | none => Except.error MnError.parseError
  | some sr => Except.ok sr

/-- Inner loop of `Mininet.ping_test`: one source node pinging every
destination in `dests`, accumulating `packets` (total sent) and `lost`.
`pingOut src dst` is the text produced by `node.cmd('ping -c1 ' + dest.IP())`,
an external effect supplied as an oracle; nodes are identified by their DPIDs
(the registry maps distinct DPIDs to distinct node objects, so the source's
object comparison `node != dest` is DPID inequality).  A pair whose parse
reports more packets received than sent is a fatal consistency error
(`exit(1)`). -/
def pingInner (pingOut : Nat → Nat → String) (node : Nat) (dests : List Nat)
    (packets lost : Nat) : Except MnError (Nat × Nat) :=
  match dests with
  | [] => Except.ok (packets, lost)
  | dest :: rest =>
    if node = dest then pingInner pingOut node rest packets lost
    else
      match _parse_ping (pingOut node dest) with
      | Except.error e => Except.error e
      | Except.ok (sent, received) =>
        if received > sent then Except.error MnError.anomaly
        else pingInner pingOut node rest (packets + sent) (lost + (sent - received))

/-- Outer loop of `Mininet.ping_test`.  After each source node's inner loop
the source recomputes `ploss = 100 * lost / packets`; Python 2 integer
division raises `ZeroDivisionError` when `packets` is zero, modelled as the
explicit `divByZero` error. -/
def pingOuter (pingOut : Nat → Nat → String) (allHosts nodes : List Nat)
    (packets lost : Nat) (ploss : Option Nat) : Except MnError (Option Nat) :=
  match nodes with
  | [] => Except.ok ploss
  | node :: rest =>
    match pingInner pingOut node allHosts packets lost with
    | Except.error e => Except.error e
    | Except.ok (p, l) =>
      if p = 0 then Except.error MnError.divByZero
      else pingOuter pingOut allHosts rest p l (some (100 * l / p))

/-- The host set actually iterated by `ping_test`: `if not hosts:` replaces
both a `None` argument and an empty list by `self.topo.hosts()`. -/
def effectiveHosts (topoHosts : List Nat) (hosts : Option (List Nat)) : List Nat :=
  match hosts with
  | none => topoHosts
  | some l => if l.isEmpty then topoHosts else l

/-- `Mininet.ping_test`: ping between all specified hosts and return the
aggregate loss percentage (`None` when the loop body never ran).  With
`verbose` the final summary interpolates `ploss` into a `%d` format; the
in-loop verbose prints format only node names and numbers and cannot fail,
but when `ploss` is still `None` the summary's `'%d' % None` raises an
uncaught Python 2 `TypeError` before the return, modelled as `typeError`. -/
def ping_test (pingOut : Nat → Nat → String) (topoHosts : List Nat)
    (hosts : Option (List Nat)) (verbose : Bool) : Except MnError (Option Nat) :=
  match pingOuter pingOut (effectiveHosts topoHosts hosts) (effectiveHosts topoHosts hosts) 0 0 none with
  | Except.error e => Except.error e
  | Except.ok ploss =>
    if verbose then
      match ploss with
      | none => Except.error MnError.typeError
      | some p => Except.ok (some p)
    else Except.ok ploss

/-- Aggregate totals of `ping_test`: the pair (total packets sent, total
packets lost) accumulated over every ordered pair, with the same parse and
anomaly behaviour as `pingOuter` but without the per-source division. -/
def pingTotals (pingOut : Nat → Nat → String) (allHosts nodes : List Nat)
    (packets lost : Nat) : Except MnError (Nat × Nat) :=
  match nodes with
  | [] => Except.ok (packets, lost)
  | node :: rest =>
    match pingInner pingOut node allHosts packets lost with
    | Except.error e => Except.error e
    | Except.ok (p, l) => pingTotals pingOut allHosts rest p l

end Mininet

/-- Association-list lookup, the embedding of Python dict indexing
(`d[k]`, `none` standing for a `KeyError`). -/
def alistLookup [DecidableEq α] (k : α) : List (α × β) → Option β
  | [] => none
  | (k2, v) :: rest => if k2 = k then some v else alistLookup k rest

/-- Association-list update, the embedding of Python dict assignment
(`d[k] = v`): overwrite in place, append when absent. -/
def alistInsert [DecidableEq α] (k : α) (v : β) : List (α × β) → List (α × β)
  | [] => [(k, v)]
  | (k2, v2) :: rest => if k2 = k then (k, v) :: rest else (k2, v2) :: alistInsert k v rest

/-- Apply `f` to the value stored under `k`, when present: the embedding of
mutating the object a Python dict entry refers to. -/
def alistModify [DecidableEq α] (k : α) (f : β → β) : List (α × β) → List (α × β)
  | [] => []
  | (k2, v) :: rest => if k2 = k then (k2, f v) :: rest else (k2, v) :: alistModify k f rest

/-- Reference to a live node object: either the node registered under a DPID
in `Mininet.nodes`, or the controller object stored in
`Mininet.controllers['c0']`. -/
inductive NodeRef where
  | node (dpid : Nat)
  | ctrl
deriving DecidableEq

/-- Modelled from the spec: the node classes (`Host`, `Switch`, `Controller`)
live in `mininet/node.py`, which is not part of this repository snapshot.
The spec's node-handle contract gives each node a name, an ordered interface
list, a connection map from local interface to (peer, peer interface), and a
namespace flag; kernel switches additionally carry their datapath name
(`'nl:' + str(dps)` in `Mininet._add_switch`), kept here as `dpIdent`. -/
structure Node where
  name : String
  intfs : List String
  connection : List (String × NodeRef × String)
  inNamespace : Bool
  dpIdent : Option String
deriving DecidableEq

/-- Modelled from the spec: `Node.intfName` is defined in the missing
`mininet/node.py`; the module docstring and spec fix interface naming as the
node name followed by `-eth` and the port number. -/
def intfName (n : Node) (port : Nat) : String :=
  n.name ++ "-eth" ++ toString port

/-- Abstract topology collaborator (`mininet/topo.py`, external to the core):
host and switch DPID enumerations, edge list, port resolution, and per-DPID
name and IP resolution. -/
structure Topo where
  hosts : List Nat
  switches : List Nat
  edges : List (Nat × Nat)
  port : Nat → Nat → Nat × Nat
  name : Nat → String
  ip : Nat → Nat

/-- Materialization events, one per `_add_*` call performed by
`Mininet.build`, in the order the calls happen. -/
inductive BuildEv where
  | addController
  | addHost (dpid : Nat)
  | addSwitch (dpid : Nat)
  | addLink (src dst : Nat)
deriving DecidableEq

/-- Configuration flags fixed in `Mininet.__init__`. -/
structure MnConfig where
  switch_is_kernel : Bool
  in_namespace : Bool
deriving DecidableEq

/-- Mutable orchestrator state: `self.nodes` (DPID to node), `self.controllers`
(name to controller node), the kernel datapath counter `self.dps`, plus the
recorded materialization trace. -/
structure MnState where
  nodes : List (Nat × Node)
  controllers : List (String × Node)
  dps : Nat
  trace : List BuildEv
deriving DecidableEq

namespace Mininet

/-- `Mininet._add_host`: create the host node `h_<name>`, give it its single
interface `h_<name>-eth0`, and register it under its DPID. -/
def _add_host (cfg : MnConfig) (topo : Topo) (dpid : Nat) (st : MnState) : MnState :=
  let hname := "h_" ++ topo.name dpid
  let host : Node :=
    { name := hname, intfs := [hname ++ "-eth0"], connection := [],
      inNamespace := cfg.in_namespace, dpIdent := none }
  { st with nodes := alistInsert dpid host st.nodes,
            trace := st.trace ++ [BuildEv.addHost dpid] }

/-- `Mininet._add_switch`: create the switch node `s_<name>`; in kernel mode
it is bound to datapath `'nl:' + str(self.dps)` and the counter is bumped. -/
def _add_switch (cfg : MnConfig) (topo : Topo) (dpid : Nat) (st : MnState) : MnState :=
  if cfg.switch_is_kernel then
    let sw : Node :=
      { name := "s_" ++ topo.name dpid, intfs := [], connection := [],
        inNamespace := cfg.in_namespace, dpIdent := some ("nl:" ++ toString st.dps) }
    { st with nodes := alistInsert dpid sw st.nodes, dps := st.dps + 1,
              trace := st.trace ++ [BuildEv.addSwitch dpid] }
  else
    let sw : Node :=
      { name := "s_" ++ topo.name dpid, intfs := [], connection := [],
        inNamespace := cfg.in_namespace, dpIdent := none }
    { st with nodes := alistInsert dpid sw st.nodes,
              trace := st.trace ++ [BuildEv.addSwitch dpid] }

/-- `Mininet._add_controller`: create the single controller node and store it
under the fixed name `c0`. -/
def _add_controller (cfg : MnConfig) (st : MnState) : MnState :=
  let c : Node :=
    { name := "c0", intfs := [], connection := [],
      inNamespace := cfg.in_namespace, dpIdent := none }
  { st with controllers := alistInsert "c0" c st.controllers,
            trace := st.trace ++ [BuildEv.addController] }

/-- `Mininet._add_link`: resolve the edge's ports, derive both interface
names, create the veth pair (external OS effect), append each interface to
its endpoint's list, and populate both connection maps symmetrically.  The
`self.nodes[src]` and `self.nodes[dst]` lookups raise `KeyError` on a missing
DPID; the `move_intf` retries touch only OS namespaces, not this state, and
are modelled as succeeding. -/
def _add_link (topo : Topo) (src dst : Nat) (st : MnState) : Except MnError MnState :=
  match alistLookup src st.nodes, alistLookup dst st.nodes with
  | none, _ => Except.error MnError.keyError
  | some _, none => Except.error MnError.keyError
  | some src_node, some dst_node =>
    let src_intf := intfName src_node (topo.port src dst).1
    let dst_intf := intfName dst_node (topo.port src dst).2
    let n1 := alistModify src (fun n => { n with intfs := n.intfs ++ [src_intf] }) st.nodes
    let n2 := alistModify dst (fun n => { n with intfs := n.intfs ++ [dst_intf] }) n1
    let n3 := alistModify src
      (fun n => { n with connection := alistInsert src_intf (NodeRef.node dst, dst_intf) n.connection }) n2
    let n4 := alistModify dst
      (fun n => { n with connection := alistInsert dst_intf (NodeRef.node src, src_intf) n.connection }) n3
    Except.ok { st with nodes := n4, trace := st.trace ++ [BuildEv.addLink src dst] }

/-- The host-adding loop of `Mininet.build`. -/
def addHosts (cfg : MnConfig) (topo : Topo) : List Nat → MnState → MnState
  | [], st => st
  | d :: rest, st => addHosts cfg topo rest (_add_host cfg topo d st)

/-- The switch-adding loop of `Mininet.build`. -/
def addSwitches (cfg : MnConfig) (topo : Topo) : List Nat → MnState → MnState
  | [], st => st
  | d :: rest, st => addSwitches cfg topo rest (_add_switch cfg topo d st)

/-- The edge-adding loop of `Mininet.build`; the first failing `_add_link`
aborts the build. -/
def addLinks (topo : Topo) : List (Nat × Nat) → MnState → Except MnError MnState
  | [], st => Except.ok st
  | (src, dst) :: rest, st =>
    match _add_link topo src dst st with
    | Except.error e => Except.error e
    | Except.ok st2 => addLinks topo rest st2

/-- Python `sorted` on a list of numeric DPIDs: ascending order. -/
def sortNat (l : List Nat) : List Nat :=
  List.insertionSort (fun a b => a ≤ b) l

/-- Lexicographic order on edge pairs, the order Python `sorted` uses for
tuples of numbers. -/
def edgeLE (p q : Nat × Nat) : Prop :=
  p.1 < q.1 ∨ (p.1 = q.1 ∧ p.2 ≤ q.2)

instance : DecidableRel edgeLE := fun p q => by
  unfold edgeLE; infer_instance

/-- Python `sorted` on the edge list: ascending in the (source, destination)
pair. -/
def sortEdges (l : List (Nat × Nat)) : List (Nat × Nat) :=
  List.insertionSort edgeLE l

instance : IsTotal (Nat × Nat) edgeLE :=
  ⟨by intro a b; unfold edgeLE; omega⟩

instance : IsTrans (Nat × Nat) edgeLE :=
  ⟨by intro a b c; unfold edgeLE; omega⟩

/-- `Mininet.build`: add the controller, then every host in ascending DPID
order, then every switch in ascending DPID order, then every edge in
ascending (src, dst) order.  The user-datapath control-network configuration
and the host configuration that follow mutate only the external nodes (IPs,
routes), not the registry modelled here. -/
def build (cfg : MnConfig) (topo : Topo) : Except MnError MnState :=
  let st0 : MnState := { nodes := [], controllers := [], dps := 0, trace := [] }
  let st1 := _add_controller cfg st0
  let st2 := addHosts cfg topo (sortNat topo.hosts) st1
  let st3 := addSwitches cfg topo (sortNat topo.switches) st2
  addLinks topo (sortEdges topo.edges) st3

end Mininet

/-- Lifecycle side effects on live nodes, in the order `Mininet.start` and
`Mininet.stop` perform them (`controller.start()`, `switch.start(c0)`,
`host.terminate()`, `switch.stop()`, `controller.stop()` are external node
operations; only their order is observable here). -/
inductive LcEv where
  | startController
  | startSwitch (dpid : Nat)
  | terminateHost (dpid : Nat)
  | stopSwitch (dpid : Nat)
  | stopController
deriving DecidableEq

namespace Mininet

/-- `Mininet.start`: start the controller, then start every switch (each
attaching to `c0`), iterating `self.topo.switches()` in topology order. -/
def start (topo : Topo) : List LcEv :=
  LcEv.startController :: topo.switches.map LcEv.startSwitch

/-- `Mininet.stop`: terminate every host, then stop every switch, then stop
the controller, each collection iterated in topology order. -/
def stop (topo : Topo) : List LcEv :=
  topo.hosts.map LcEv.terminateHost ++ topo.switches.map LcEv.stopSwitch ++ [LcEv.stopController]

/-- Addressing side effects of `_configureRoutedControlNetwork`, tagged with
the switch DPID whose loop iteration performed them: `controller.setIP`,
`switch.setIP`, `controller.setHostRoute`, `switch.setHostRoute` (the
concrete addresses come from `self.cparams` and `self.topo.ip` and do not
affect which events fire). -/
inductive CfgEv where
  | ctrlSetIP (dpid : Nat) (intf : String)
  | swSetIP (dpid : Nat) (intf : String)
  | ctrlHostRoute (dpid : Nat)
  | swHostRoute (dpid : Nat)
deriving DecidableEq

/-- The switch DPID whose loop iteration produced an addressing event. -/
def cfgTag : CfgEv → Nat
  | CfgEv.ctrlSetIP d _ => d
  | CfgEv.swSetIP d _ => d
  | CfgEv.ctrlHostRoute d => d
  | CfgEv.swHostRoute d => d

/-- One switch iteration of the addressing loop in
`_configureRoutedControlNetwork`: look the switch up in the registry
(`KeyError` on a missing DPID), take its first interface (`IndexError` when
it has none), resolve the peer of that interface from its connection map
(`KeyError` when absent), abort with `exit(1)` when the peer is not the
controller object, and otherwise apply the four addressing calls. -/
def cfgStep (st : MnState) (sd : Nat) : Except MnError (List CfgEv) :=
  match alistLookup sd st.nodes with
  | none => Except.error MnError.keyError
  | some sw =>
    match sw.intfs.head? with
    | none => Except.error MnError.keyError
    | some sintf =>
      match alistLookup sintf sw.connection with
      | none => Except.error MnError.keyError
      | some (peer, cintf) =>
        if peer = NodeRef.ctrl then
          Except.ok [CfgEv.ctrlSetIP sd cintf, CfgEv.swSetIP sd sintf,
                     CfgEv.ctrlHostRoute sd, CfgEv.swHostRoute sd]
        else Except.error MnError.badController

/-- The addressing loop of `_configureRoutedControlNetwork` over the switch
list, returning the addressing events performed before the loop ended
together with the abort, if one fired.  (After this loop the source polls the
control interfaces until they report up and pings controller/switch pairs —
unbounded waiting on external state, past the addressing behaviour modelled
here.) -/
def cfgLoop (st : MnState) : List Nat → List CfgEv × Option MnError
  | [] => ([], none)
  | sd :: rest =>
    match cfgStep st sd with
    | Except.error e => ([], some e)
    | Except.ok evs =>
      let r := cfgLoop st rest
      (evs ++ r.1, r.2)

/-- The addressing phase of `Mininet._configureRoutedControlNetwork`,
iterating `self.topo.switches()` in topology order. -/
def _configureRoutedControlNetwork (topo : Topo) (st : MnState) : List CfgEv × Option MnError :=
  cfgLoop st topo.switches

end Mininet

/-- Helper for `pySplitSpace`: `acc` holds the characters of the current
token in reverse. -/
def splitAux : List Char → List Char → List String
  | [], acc => [String.mk acc.reverse]
  | c :: cs, acc =>
    if c = ' ' then String.mk acc.reverse :: splitAux cs []
    else splitAux cs (c :: acc)

/-- Python `str.split(' ')`: split at every single space, keeping empty
tokens (so consecutive spaces and an empty input yield empty strings). -/
def pySplitSpace (s : String) : List String :=
  splitAux s.data []

namespace MininetCLI

/-- `MininetCLI.cmds`: the command words the CLI recognizes. -/
def cmds : List String :=
  ["?", "help", "nodes", "net", "sh", "ping_all", "exit", "ping_pair"]

/-- The members of `cmds` that are actual methods of `MininetCLI`, i.e. those
for which `hasattr(self, first)` holds (`'?'` and `'exit'` are in `cmds` but
have no method and fall through to the later branches). -/
def methodCmds : List String :=
  ["help", "nodes", "net", "sh", "ping_all", "ping_pair"]

/-- The action one iteration of `MininetCLI.run` dispatches a stripped input
line to. -/
inductive Action where
  | builtin (cmd : String) (args : List String)
  | nodeCmd (name : String) (cmdline : String)
  | noop
  | quit
  | unknown (w : String)
deriving DecidableEq

/-- One dispatch step of `MininetCLI.run` on a line already stripped of its
trailing newline.  `nodemap` maps live node names to their addresses (the
source stores node objects and calls the external `node.IP()` at
substitution time; the map carries the resolved addresses).  The branches, in
source order: a `cmds` member that is a real method runs as a built-in; a
known node name with remaining words runs those words on the node after every
word naming a live node is replaced by that node's address; an empty first
word is a no-op; `exit`/`quit` leave the loop; a bare `?` runs `help`;
anything else is an unknown-command error. -/
def dispatchLine (nodemap : List (String × String)) (line : String) : Action :=
  let cmd := pySplitSpace line
  let first := cmd.headD ""
  let rest := cmd.tail
  if first ∈ cmds ∧ first ∈ methodCmds then Action.builtin first rest
  else if (alistLookup first nodemap).isSome ∧ rest ≠ [] then
    let rest2 := rest.map (fun arg =>
      match alistLookup arg nodemap with
      | some ip => ip
      | none => arg)
    Action.nodeCmd first (String.intercalate " " rest2)
  else if first = "" then Action.noop
  else if first = "exit" ∨ first = "quit" then Action.quit
  else if first = "?" then Action.builtin "help" rest
  else Action.unknown first

end MininetCLI

/-- Symmetry of the connection maps: whenever node `a`'s map sends local
interface `i` to node `b`'s interface `bi`, node `b`'s map sends `bi` back to
`(a, i)`. -/
def symmConn (st : MnState) : Prop :=
  ∀ a na i b bi,
    alistLookup a st.nodes = some na →
    alistLookup i na.connection = some (NodeRef.node b, bi) →
    ∃ nb, alistLookup b st.nodes = some nb ∧
      alistLookup bi nb.connection = some (NodeRef.node a, i)

/-- The switch registered under `sd` resolves its first interface's peer to
something other than the controller object — the misconfiguration
`_configureRoutedControlNetwork` must reject. -/
def badPeerAt (st : MnState) (sd : Nat) : Prop :=
  ∃ sw sintf peer cintf,
    alistLookup sd st.nodes = some sw ∧
    sw.intfs.head? = some sintf ∧
    alistLookup sintf sw.connection = some (peer, cintf) ∧
    peer ≠ NodeRef.ctrl

/-- Concrete two-host, two-switch, three-edge topology used by witnesses. -/
def topoEx : Topo :=
  { hosts := [2, 1], switches := [4, 3], edges := [(3, 4), (1, 3), (2, 4)],
    port := fun _ _ => (0, 1), name := fun d => toString d, ip := fun d => d }

/-- Kernel-datapath configuration used by witnesses. -/
def cfgEx : MnConfig := { switch_is_kernel := true, in_namespace := false }

/-- The registry state `build` produces on the witness topology. -/
def stEx : MnState :=
  match Mininet.build cfgEx topoEx with
  | Except.ok st => st
  | Except.error _ => { nodes := [], controllers := [], dps := 0, trace := [] }

/-- Ping oracle whose two-host run sends 3 packets in total and loses 1. -/
def pingOut31 : Nat → Nat → String := fun a _ =>
  if a = 1 then "2 packets transmitted, 1 received" else "1 packets transmitted, 1 received"

/-- Ping oracle reporting more packets received than sent. -/
def pingOutAnomaly : Nat → Nat → String := fun _ _ =>
  "3 packets transmitted, 5 received"

/-- A host node with one interface and no connections yet. -/
def nodeEx (k : Nat) : Node :=
  { name := "h_" ++ toString k, intfs := ["h_" ++ toString k ++ "-eth0"],
    connection := [], inNamespace := false, dpIdent := none }

/-- Two registered, not yet linked nodes. -/
def stLinkEx : MnState :=
  { nodes := [(1, nodeEx 1), (2, nodeEx 2)], controllers := [], dps := 0, trace := [] }

/-- The state after wiring the edge (1, 2) in `stLinkEx`. -/
def stLinkEx' : MnState :=
  match Mininet._add_link topoEx 1 2 stLinkEx with
  | Except.ok st => st
  | Except.error _ => stLinkEx

/-- A switch whose single interface is wired to another node rather than to
the controller. -/
def swBadEx : Node :=
  { name := "s_5", intfs := ["s_5-eth0"],
    connection := [("s_5-eth0", (NodeRef.node 7, "h_7-eth0"))],
    inNamespace := false, dpIdent := none }

/-- Registry holding only the miswired switch 5. -/
def stBadEx : MnState :=
  { nodes := [(5, swBadEx)], controllers := [], dps := 0, trace := [] }

/-- Topology whose switch list is just the miswired switch. -/
def topoBadEx : Topo :=
  { hosts := [], switches := [5], edges := [],
    port := fun _ _ => (0, 1), name := fun d => toString d, ip := fun d => d }

/-- Counterexample to claim C1 as stated: over an empty node set with
verbose printing on, `ping_test` does not return a sentinel — the final
summary's `'%d' % None` raises an uncaught `TypeError`. -/
theorem ping_test_empty_set_verbose_crash :
    Mininet.ping_test (fun _ _ => "") [] none true = Except.error MnError.typeError := rfl

/-- Claim C1 (amended): a `ping_test` call whose node set is empty never
reaches the loss-percentage division, so no division by zero is ever raised;
with verbose printing off (the default) the call returns the `None` sentinel,
while with verbose printing on it crashes formatting that `None` — there is
no explicit guard or documented sentinel in the source. -/
theorem ping_test_empty_set_no_division (pingOut : Nat → Nat → String)
    (hosts : Option (List Nat)) (h : hosts = none ∨ hosts = some []) :
    Mininet.ping_test pingOut [] hosts false = Except.ok none ∧
    Mininet.ping_test pingOut [] hosts true = Except.error MnError.typeError ∧
    ∀ verbose : Bool,
      Mininet.ping_test pingOut [] hosts verbose ≠ Except.error MnError.divByZero := by
  rcases h with h | h <;> subst h <;>
    exact ⟨rfl, rfl, fun v => by
      cases v
      · exact fun hc => Except.noConfusion hc
      · exact fun hc => MnError.noConfusion (Except.error.inj hc)⟩

theorem ping_test_empty_set_no_division_witness :
    Mininet.ping_test (fun _ _ => "") [] none false = Except.ok none :=
  (ping_test_empty_set_no_division (fun _ _ => "") none (Or.inl rfl)).1

/-- Claim C10: passing an explicitly empty host list to `ping_test` is
indistinguishable from passing no host set at all — `if not hosts:` replaces
both by the topology's full host list. -/
theorem ping_test_empty_list_same_as_default (pingOut : Nat → Nat → String)
    (topoHosts : List Nat) :
    (∀ verbose : Bool,
      Mininet.ping_test pingOut topoHosts (some []) verbose
        = Mininet.ping_test pingOut topoHosts none verbose) ∧
    Mininet.effectiveHosts topoHosts (some []) = topoHosts :=
  ⟨fun _ => rfl, rfl⟩

/-- Claim C3: a ping whose parsed result reports more packets received than
sent makes `ping_test` abort with the fatal measurement-anomaly error, never
folding the anomalous counts into the loss statistic; in particular the
output `3 packets transmitted, 5 received` parses to (3, 5) and aborts the
test. -/
theorem ping_test_anomaly_fatal :
    (∀ (pingOut : Nat → Nat → String) (node dest : Nat) (rest : List Nat)
        (packets lost sent received : Nat),
        node ≠ dest →
        Mininet._parse_ping (pingOut node dest) = Except.ok (sent, received) →
        sent < received →
        Mininet.pingInner pingOut node (dest :: rest) packets lost
          = Except.error MnError.anomaly) ∧
    Mininet._parse_ping "3 packets transmitted, 5 received" = Except.ok (3, 5) ∧
    Mininet.ping_test pingOutAnomaly [1, 2] none false = Except.error MnError.anomaly ∧
    Mininet.ping_test pingOutAnomaly [1, 2] none true = Except.error MnError.anomaly := by
  refine ⟨?_, rfl, rfl, rfl⟩
  intro pingOut node dest rest packets lost sent received hne hp hlt
  simp only [Mininet.pingInner, if_neg hne, hp, if_pos hlt]

theorem ping_test_anomaly_fatal_witness :
    Mininet.pingInner pingOutAnomaly 1 [2] 0 0 = Except.error MnError.anomaly :=
  ping_test_anomaly_fatal.1 pingOutAnomaly 1 2 [] 0 0 3 5 (by decide) rfl (by decide)

/-- Invariant carried by the outer ping loop: whenever a loss percentage has
already been computed it is the truncated quotient of the running totals. -/
theorem pingOuter_totals (pingOut : Nat → Nat → String) (allHosts : List Nat) :
    ∀ (nodes : List Nat) (packets lost : Nat) (ploss : Option Nat) (q : Nat),
      (∀ x, ploss = some x → 0 < packets ∧ x = 100 * lost / packets) →
      Mininet.pingOuter pingOut allHosts nodes packets lost ploss = Except.ok (some q) →
      ∃ S L, Mininet.pingTotals pingOut allHosts nodes packets lost = Except.ok (S, L) ∧
        0 < S ∧ q = 100 * L / S := by
  intro nodes
  induction nodes with
  | nil =>
    intro packets lost ploss q hinv hrun
    simp only [Mininet.pingOuter, Except.ok.injEq] at hrun
    subst hrun
    exact ⟨packets, lost, rfl, (hinv q rfl).1, (hinv q rfl).2⟩
  | cons node rest ih =>
    intro packets lost ploss q hinv hrun
    simp only [Mininet.pingOuter] at hrun
    cases hpi : Mininet.pingInner pingOut node allHosts packets lost with
    | error e => simp only [hpi] at hrun; exact absurd hrun (by simp)
    | ok pl =>
      obtain ⟨p, l⟩ := pl
      simp only [hpi] at hrun
      by_cases hp : p = 0
      · rw [if_pos hp] at hrun; exact absurd hrun (by simp)
      · rw [if_neg hp] at hrun
        have hk := ih p l (some (100 * l / p)) q ?_ hrun
        · simpa [Mininet.pingTotals, hpi] using hk
        · intro x hx
          cases hx
          exact ⟨Nat.pos_of_ne_zero hp, rfl⟩

/-- A `ping_test` call that returns a percentage got it from the loop: the
verbose summary formats a number and returns it unchanged, so the underlying
`pingOuter` run produced that same percentage. -/
theorem ping_test_ok_pingOuter (pingOut : Nat → Nat → String) (topoHosts : List Nat)
    (hosts : Option (List Nat)) (verbose : Bool) (q : Nat)
    (h : Mininet.ping_test pingOut topoHosts hosts verbose = Except.ok (some q)) :
    Mininet.pingOuter pingOut (Mininet.effectiveHosts topoHosts hosts)
      (Mininet.effectiveHosts topoHosts hosts) 0 0 none = Except.ok (some q) := by
  unfold Mininet.ping_test at h
  cases hpo : Mininet.pingOuter pingOut (Mininet.effectiveHosts topoHosts hosts)
      (Mininet.effectiveHosts topoHosts hosts) 0 0 none with
  | error e => simp only [hpo] at h; exact absurd h (by simp)
  | ok ploss =>
    simp only [hpo] at h
    cases verbose with
    | false =>
      simp only [Bool.false_eq_true, if_false] at h
      exact h
    | true =>
      simp only [if_true] at h
      cases ploss with
      | none => exact absurd h (by simp)
      | some p =>
        injection h with h
        rw [h]

/-- Claim C2: when a `ping_test` run over a non-empty node set completes with
a percentage, that percentage is `100 * totalLost / totalSent` under
truncating natural division; with 3 packets sent in total and 1 lost the
reported loss is exactly 33. -/
theorem ping_test_truncating_division :
    (∀ (pingOut : Nat → Nat → String) (topoHosts : List Nat)
        (hosts : Option (List Nat)) (verbose : Bool) (q : Nat),
        Mininet.ping_test pingOut topoHosts hosts verbose = Except.ok (some q) →
        ∃ S L,
          Mininet.pingTotals pingOut (Mininet.effectiveHosts topoHosts hosts)
              (Mininet.effectiveHosts topoHosts hosts) 0 0 = Except.ok (S, L) ∧
          0 < S ∧ q = 100 * L / S) ∧
    Mininet.ping_test pingOut31 [1, 2] none false = Except.ok (some 33) ∧
    Mininet.ping_test pingOut31 [1, 2] none true = Except.ok (some 33) := by
  refine ⟨?_, rfl, rfl⟩
  intro pingOut topoHosts hosts verbose q h
  exact pingOuter_totals pingOut _ _ 0 0 none q (by intro x hx; cases hx)
    (ping_test_ok_pingOuter pingOut topoHosts hosts verbose q h)

theorem ping_test_truncating_division_witness :
    ∃ S L,
      Mininet.pingTotals pingOut31 (Mininet.effectiveHosts [1, 2] none)
          (Mininet.effectiveHosts [1, 2] none) 0 0 = Except.ok (S, L) ∧
      0 < S ∧ 33 = 100 * L / S :=
  ping_test_truncating_division.1 pingOut31 [1, 2] none false 33 rfl

/-- An index holding `some x` is a member of the list. -/
theorem memOfGetElemQ {α : Type} {l : List α} {i : Nat} {x : α}
    (h : l[i]? = some x) : x ∈ l := by
  rw [List.getElem?_eq_some] at h
  obtain ⟨hlt, rfl⟩ := h
  exact List.getElem_mem hlt

/-- An element found in `l1 ++ l2` that cannot occur in `l2` sits at an index
inside `l1`. -/
theorem idxLtOfNotMemRight {α : Type} {l1 l2 : List α} {i : Nat} {x : α}
    (h : (l1 ++ l2)[i]? = some x) (hx : x ∉ l2) : i < l1.length := by
  by_contra hge
  push_neg at hge
  rw [List.getElem?_append_right hge] at h
  exact hx (memOfGetElemQ h)

/-- An element found in `l1 ++ l2` that cannot occur in `l1` sits at an index
past `l1`. -/
theorem lenLeOfNotMemLeft {α : Type} {l1 l2 : List α} {i : Nat} {x : α}
    (h : (l1 ++ l2)[i]? = some x) (hx : x ∉ l1) : l1.length ≤ i := by
  by_contra hlt
  push_neg at hlt
  rw [List.getElem?_append_left hlt] at h
  exact hx (memOfGetElemQ h)

/-- Host terminations occupy the first block of the `stop` trace. -/
theorem stop_terminateHost_lt (topo : Topo) (i dh : Nat)
    (h : (Mininet.stop topo)[i]? = some (LcEv.terminateHost dh)) :
    i < topo.hosts.length := by
  unfold Mininet.stop at h
  have h1 := idxLtOfNotMemRight h (by simp)
  rw [List.getElem?_append_left h1] at h
  have h2 := idxLtOfNotMemRight h (by simp)
  simpa using h2

/-- Switch stops occupy the middle block of the `stop` trace. -/
theorem stop_stopSwitch_between (topo : Topo) (j ds : Nat)
    (h : (Mininet.stop topo)[j]? = some (LcEv.stopSwitch ds)) :
    topo.hosts.length ≤ j ∧ j < topo.hosts.length + topo.switches.length := by
  unfold Mininet.stop at h
  have h1 := idxLtOfNotMemRight h (by simp)
  rw [List.getElem?_append_left h1] at h
  have h2 := lenLeOfNotMemLeft h (by simp)
  exact ⟨by simpa using h2, by simpa using h1⟩

/-- The controller stop sits after every host and switch event in the `stop`
trace. -/
theorem stop_stopController_ge (topo : Topo) (j : Nat)
    (h : (Mininet.stop topo)[j]? = some LcEv.stopController) :
    topo.hosts.length + topo.switches.length ≤ j := by
  unfold Mininet.stop at h
  have h1 := lenLeOfNotMemLeft h (by simp)
  simpa using h1

/-- Claim C4: `start` fires the controller start strictly before every switch
start, and `stop` fires every host termination strictly before every switch
stop and every switch stop strictly before the controller stop. -/
theorem lifecycle_ordering (topo : Topo) :
    ((Mininet.start topo)[0]? = some LcEv.startController ∧
      (∀ (i d : Nat), (Mininet.start topo)[i]? = some (LcEv.startSwitch d) → 0 < i)) ∧
    (∀ (i j dh ds : Nat), (Mininet.stop topo)[i]? = some (LcEv.terminateHost dh) →
      (Mininet.stop topo)[j]? = some (LcEv.stopSwitch ds) → i < j) ∧
    (∀ (i j ds : Nat), (Mininet.stop topo)[i]? = some (LcEv.stopSwitch ds) →
      (Mininet.stop topo)[j]? = some LcEv.stopController → i < j) ∧
    (∀ (i j dh : Nat), (Mininet.stop topo)[i]? = some (LcEv.terminateHost dh) →
      (Mininet.stop topo)[j]? = some LcEv.stopController → i < j) := by
  refine ⟨⟨by simp [Mininet.start], ?_⟩, ?_, ?_, ?_⟩
  · intro i d h
    unfold Mininet.start at h
    cases i with
    | zero => simp at h
    | succ n => exact Nat.succ_pos n
  · intro i j dh ds hi hj
    have h1 := stop_terminateHost_lt topo i dh hi
    have h2 := (stop_stopSwitch_between topo j ds hj).1
    omega
  · intro i j ds hi hj
    have h1 := (stop_stopSwitch_between topo i ds hi).2
    have h2 := stop_stopController_ge topo j hj
    omega
  · intro i j dh hi hj
    have h1 := stop_terminateHost_lt topo i dh hi
    have h2 := stop_stopController_ge topo j hj
    omega

theorem lifecycle_ordering_witness :
    (Mininet.stop topoEx)[0]? = some (LcEv.terminateHost 2) ∧ 0 < 2 :=
  ⟨by decide, (lifecycle_ordering topoEx).2.1 0 2 2 4 (by decide) (by decide)⟩

/-- Claim C9: when the first word of an input line names a live node and
arguments follow, every argument word that names a live node is replaced by
that node's address before the command line is dispatched; in particular
`h1 ping -c1 h2` runs `ping -c1 10.0.0.2` on `h1`.  (Real node names carry
the `h_`/`s_` prefix or are `c0`, so they never collide with the built-in
command words, which take precedence in the dispatcher.) -/
theorem cli_address_substitution :
    (∀ (nodemap : List (String × String)) (line first : String) (rest : List String),
        pySplitSpace line = first :: rest →
        (alistLookup first nodemap).isSome →
        first ∉ MininetCLI.methodCmds →
        rest ≠ [] →
        MininetCLI.dispatchLine nodemap line =
          MininetCLI.Action.nodeCmd first
            (String.intercalate " "
              (rest.map (fun arg => (alistLookup arg nodemap).getD arg)))) ∧
    MininetCLI.dispatchLine [("h1", "10.0.0.1"), ("h2", "10.0.0.2")] "h1 ping -c1 h2"
      = MininetCLI.Action.nodeCmd "h1" "ping -c1 10.0.0.2" := by
  constructor
  · intro nodemap line first rest hsplit hlook hnm hrest
    unfold MininetCLI.dispatchLine
    rw [hsplit]
    simp only [List.headD_cons, List.tail_cons]
    rw [if_neg (fun hc => hnm hc.2)]
    rw [if_pos ⟨hlook, hrest⟩]
    have hfn : (fun arg => match alistLookup arg nodemap with
        | some ip => ip
        | none => arg) = (fun arg => (alistLookup arg nodemap).getD arg) :=
      funext fun a => by cases alistLookup a nodemap <;> rfl
    rw [hfn]
  · decide

theorem cli_address_substitution_witness :
    MininetCLI.dispatchLine [("h1", "10.0.0.1"), ("h2", "10.0.0.2")] "h2 ping h1"
      = MininetCLI.Action.nodeCmd "h2"
          (String.intercalate " " (["ping", "h1"].map (fun arg =>
            (alistLookup arg [("h1", "10.0.0.1"), ("h2", "10.0.0.2")]).getD arg))) :=
  cli_address_substitution.1 [("h1", "10.0.0.1"), ("h2", "10.0.0.2")] "h2 ping h1"
    "h2" ["ping", "h1"] (by decide) (by decide) (by decide) (by decide)

/-- A miswired switch makes its own loop iteration abort with the
controller-connectivity error, before its addressing calls. -/
theorem cfgStep_badPeer (st : MnState) (sd : Nat) (h : badPeerAt st sd) :
    Mininet.cfgStep st sd = Except.error MnError.badController := by
  obtain ⟨sw, sintf, peer, cintf, h1, h2, h3, h4⟩ := h
  simp only [Mininet.cfgStep, h1, h2, h3, if_neg h4]

/-- Addressing events produced by one loop iteration carry that iteration's
switch DPID. -/
theorem cfgStep_ok_tags (st : MnState) (d : Nat) (evs : List Mininet.CfgEv)
    (h : Mininet.cfgStep st d = Except.ok evs) :
    ∀ e ∈ evs, Mininet.cfgTag e = d := by
  unfold Mininet.cfgStep at h
  cases h1 : alistLookup d st.nodes with
  | none => simp only [h1] at h; exact absurd h (by simp)
  | some sw =>
    simp only [h1] at h
    cases h2 : sw.intfs.head? with
    | none => simp only [h2] at h; exact absurd h (by simp)
    | some sintf =>
      simp only [h2] at h
      cases h3 : alistLookup sintf sw.connection with
      | none => simp only [h3] at h; exact absurd h (by simp)
      | some pc =>
        obtain ⟨peer, cintf⟩ := pc
        simp only [h3] at h
        by_cases h4 : peer = NodeRef.ctrl
        · rw [if_pos h4] at h
          injection h with h
          subst h
          intro e he
          rcases List.mem_cons.mp he with rfl | he
          · rfl
          rcases List.mem_cons.mp he with rfl | he
          · rfl
          rcases List.mem_cons.mp he with rfl | he
          · rfl
          rcases List.mem_cons.mp he with rfl | he
          · rfl
          · simp at he
        · rw [if_neg h4] at h
          exact absurd h (by simp)

/-- Over any switch list containing a miswired switch, the addressing loop
aborts and performs no addressing tagged with that switch. -/
theorem cfgLoop_bad (st : MnState) (sd : Nat) (hbad : badPeerAt st sd) :
    ∀ l : List Nat, sd ∈ l →
      (Mininet.cfgLoop st l).2.isSome = true ∧
      ∀ e ∈ (Mininet.cfgLoop st l).1, Mininet.cfgTag e ≠ sd := by
  intro l
  induction l with
  | nil => intro h; simp at h
  | cons d rest ih =>
    intro hmem
    by_cases hd : sd = d
    · subst hd
      unfold Mininet.cfgLoop
      rw [cfgStep_badPeer st sd hbad]
      exact ⟨rfl, by simp⟩
    · have hmem2 : sd ∈ rest := by
        rcases List.mem_cons.mp hmem with h | h
        · exact absurd h hd
        · exact h
      unfold Mininet.cfgLoop
      cases hstep : Mininet.cfgStep st d with
      | error e => exact ⟨rfl, by simp⟩
      | ok evs =>
        obtain ⟨hsome, htags⟩ := ih hmem2
        refine ⟨by simpa using hsome, ?_⟩
        intro e he
        rcases List.mem_append.mp he with h | h
        · rw [cfgStep_ok_tags st d evs hstep e h]
          exact fun hc => hd hc.symm
        · exact htags e h

/-- Claim C8: a switch whose first interface's peer is not the controller
makes control-network configuration abort with the fatal configuration error
(`exit(1)`) and no addressing call of that switch's iteration is ever
performed. -/
theorem control_net_bad_peer_aborts :
    ∀ (topo : Topo) (st : MnState) (sd : Nat),
      sd ∈ topo.switches → badPeerAt st sd →
      Mininet.cfgStep st sd = Except.error MnError.badController ∧
      (Mininet._configureRoutedControlNetwork topo st).2.isSome = true ∧
      ∀ e ∈ (Mininet._configureRoutedControlNetwork topo st).1, Mininet.cfgTag e ≠ sd := by
  intro topo st sd hmem hbad
  exact ⟨cfgStep_badPeer st sd hbad,
    (cfgLoop_bad st sd hbad topo.switches hmem).1,
    (cfgLoop_bad st sd hbad topo.switches hmem).2⟩

theorem control_net_bad_peer_aborts_witness :
    Mininet.cfgStep stBadEx 5 = Except.error MnError.badController :=
  (control_net_bad_peer_aborts topoBadEx stBadEx 5 (by decide)
    ⟨swBadEx, "s_5-eth0", NodeRef.node 7, "h_7-eth0", rfl, rfl, rfl, by decide⟩).1

/-- The host-adding loop appends exactly one `addHost` event per host, in
iteration order. -/
theorem addHosts_trace (cfg : MnConfig) (topo : Topo) :
    ∀ (l : List Nat) (st : MnState),
      (Mininet.addHosts cfg topo l st).trace = st.trace ++ l.map BuildEv.addHost := by
  intro l
  induction l with
  | nil => intro st; simp [Mininet.addHosts]
  | cons d rest ih =>
    intro st
    simp only [Mininet.addHosts]
    rw [ih]
    simp [Mininet._add_host]

/-- The switch-adding loop appends exactly one `addSwitch` event per switch,
in iteration order, in both datapath modes. -/
theorem addSwitches_trace (cfg : MnConfig) (topo : Topo) :
    ∀ (l : List Nat) (st : MnState),
      (Mininet.addSwitches cfg topo l st).trace = st.trace ++ l.map BuildEv.addSwitch := by
  intro l
  induction l with
  | nil => intro st; simp [Mininet.addSwitches]
  | cons d rest ih =>
    intro st
    simp only [Mininet.addSwitches]
    rw [ih]
    by_cases hk : cfg.switch_is_kernel <;> simp [Mininet._add_switch, hk]

/-- A successful `_add_link` appends exactly its own `addLink` event. -/
theorem _add_link_trace (topo : Topo) (src dst : Nat) (st st2 : MnState)
    (h : Mininet._add_link topo src dst st = Except.ok st2) :
    st2.trace = st.trace ++ [BuildEv.addLink src dst] := by
  unfold Mininet._add_link at h
  cases h1 : alistLookup src st.nodes with
  | none => simp only [h1] at h; exact absurd h (by simp)
  | some sn =>
    cases h2 : alistLookup dst st.nodes with
    | none => simp only [h1, h2] at h; exact absurd h (by simp)
    | some dn =>
      simp only [h1, h2] at h
      injection h with h
      subst h
      rfl

/-- A successful edge-adding loop appends one `addLink` event per edge, in
iteration order. -/
theorem addLinks_trace (topo : Topo) :
    ∀ (el : List (Nat × Nat)) (st st' : MnState),
      Mininet.addLinks topo el st = Except.ok st' →
      st'.trace = st.trace ++ el.map (fun e => BuildEv.addLink e.1 e.2) := by
  intro el
  induction el with
  | nil =>
    intro st st' h
    injection h with h
    subst h
    simp
  | cons e rest ih =>
    intro st st' h
    obtain ⟨s, t⟩ := e
    simp only [Mininet.addLinks] at h
    cases hlink : Mininet._add_link topo s t st with
    | error err => simp only [hlink] at h; exact absurd h (by simp)
    | ok st2 =>
      simp only [hlink] at h
      rw [ih st2 st' h, _add_link_trace topo s t st st2 hlink]
      simp

/-- Claim C5: a successful `build` materializes in the fixed order —
controller first, then every host in ascending DPID order, then every switch
in ascending DPID order, then every edge in ascending (src, dst) order — the
host/switch/edge iterates being sorted ascending permutations of the
topology's collections. -/
theorem build_materialization_order :
    ∀ (cfg : MnConfig) (topo : Topo),
      (∀ st : MnState, Mininet.build cfg topo = Except.ok st →
        st.trace = BuildEv.addController ::
          ((Mininet.sortNat topo.hosts).map BuildEv.addHost ++
           (Mininet.sortNat topo.switches).map BuildEv.addSwitch ++
           (Mininet.sortEdges topo.edges).map (fun e => BuildEv.addLink e.1 e.2))) ∧
      (Mininet.sortNat topo.hosts).Sorted (· ≤ ·) ∧
      (Mininet.sortNat topo.hosts).Perm topo.hosts ∧
      (Mininet.sortNat topo.switches).Sorted (· ≤ ·) ∧
      (Mininet.sortNat topo.switches).Perm topo.switches ∧
      (Mininet.sortEdges topo.edges).Sorted Mininet.edgeLE ∧
      (Mininet.sortEdges topo.edges).Perm topo.edges := by
  intro cfg topo
  refine ⟨?_, List.sorted_insertionSort _ _, List.perm_insertionSort _ _,
    List.sorted_insertionSort _ _, List.perm_insertionSort _ _,
    List.sorted_insertionSort _ _, List.perm_insertionSort _ _⟩
  intro st hb
  unfold Mininet.build at hb
  rw [addLinks_trace topo _ _ st hb, addSwitches_trace, addHosts_trace]
  simp [Mininet._add_controller]

theorem build_materialization_order_witness :
    stEx.trace = BuildEv.addController ::
      ((Mininet.sortNat topoEx.hosts).map BuildEv.addHost ++
       (Mininet.sortNat topoEx.switches).map BuildEv.addSwitch ++
       (Mininet.sortEdges topoEx.edges).map (fun e => BuildEv.addLink e.1 e.2)) :=
  (build_materialization_order cfgEx topoEx).1 stEx rfl

/-- Lookup of the inserted key returns the inserted value. -/
theorem alistLookup_insert_self {α β : Type} [DecidableEq α] (k : α) (v : β) (l : List (α × β)) :
    alistLookup k (alistInsert k v l) = some v := by
  induction l with
  | nil => simp [alistInsert, alistLookup]
  | cons p rest ih =>
    obtain ⟨k2, v2⟩ := p
    by_cases h : k2 = k
    · subst h; simp [alistInsert, alistLookup]
    · simp [alistInsert, alistLookup, h, ih]

/-- Insertion under one key leaves every other key's lookup unchanged. -/
theorem alistLookup_insert_ne {α β : Type} [DecidableEq α] {k1 k2 : α} (h : k2 ≠ k1)
    (v : β) (l : List (α × β)) :
    alistLookup k2 (alistInsert k1 v l) = alistLookup k2 l := by
  induction l with
  | nil => simp [alistInsert, alistLookup, Ne.symm h]
  | cons p rest ih =>
    obtain ⟨k3, v3⟩ := p
    by_cases h3 : k3 = k1
    · subst h3
      simp [alistInsert, alistLookup, Ne.symm h]
    · simp only [alistInsert, if_neg h3]
      by_cases h2 : k3 = k2
      · subst h2; simp [alistLookup]
      · simp [alistLookup, h2, ih]

/-- Lookup of a modified key returns the modified value. -/
theorem alistLookup_modify_self {α β : Type} [DecidableEq α] (k : α) (f : β → β) (l : List (α × β)) :
    alistLookup k (alistModify k f l) = (alistLookup k l).map f := by
  induction l with
  | nil => simp [alistModify, alistLookup]
  | cons p rest ih =>
    obtain ⟨k2, v2⟩ := p
    by_cases h : k2 = k
    · subst h; simp [alistModify, alistLookup]
    · simp [alistModify, alistLookup, h, ih]

/-- Modification under one key leaves every other key's lookup unchanged. -/
theorem alistLookup_modify_ne {α β : Type} [DecidableEq α] {k1 k2 : α} (h : k2 ≠ k1)
    (f : β → β) (l : List (α × β)) :
    alistLookup k2 (alistModify k1 f l) = alistLookup k2 l := by
  induction l with
  | nil => simp [alistModify, alistLookup]
  | cons p rest ih =>
    obtain ⟨k3, v3⟩ := p
    by_cases h3 : k3 = k1
    · subst h3
      simp [alistModify, alistLookup, Ne.symm h]
    · simp only [alistModify, if_neg h3]
      by_cases h2 : k3 = k2
      · subst h2; simp [alistLookup]
      · simp [alistLookup, h2, ih]

/-- A registry modification whose node function preserves `dpIdent` keeps
every registered node's `dpIdent` intact. -/
theorem lookup_modify_dpIdent (k d : Nat) (f : Node → Node)
    (hf : ∀ m : Node, (f m).dpIdent = m.dpIdent) (l : List (Nat × Node)) (n : Node)
    (h : alistLookup d l = some n) :
    ∃ n', alistLookup d (alistModify k f l) = some n' ∧ n'.dpIdent = n.dpIdent := by
  by_cases hk : d = k
  · subst hk
    rw [alistLookup_modify_self, h]
    exact ⟨f n, rfl, hf n⟩
  · rw [alistLookup_modify_ne hk]
    exact ⟨n, h, rfl⟩

/-- Link wiring never changes any node's datapath identifier. -/
theorem _add_link_dpIdent (topo : Topo) (src dst : Nat) (st st' : MnState)
    (h : Mininet._add_link topo src dst st = Except.ok st') (d : Nat) (n : Node)
    (hl : alistLookup d st.nodes = some n) :
    ∃ n', alistLookup d st'.nodes = some n' ∧ n'.dpIdent = n.dpIdent := by
  unfold Mininet._add_link at h
  cases h1 : alistLookup src st.nodes with
  | none => simp only [h1] at h; exact absurd h (by simp)
  | some sn =>
    cases h2 : alistLookup dst st.nodes with
    | none => simp only [h1, h2] at h; exact absurd h (by simp)
    | some dn =>
      simp only [h1, h2] at h
      injection h with h
      subst h
      obtain ⟨n1, hl1, he1⟩ := lookup_modify_dpIdent src d
        (fun n => { n with intfs := n.intfs ++ [intfName sn (topo.port src dst).1] })
        (fun m => rfl) st.nodes n hl
      obtain ⟨n2, hl2, he2⟩ := lookup_modify_dpIdent dst d
        (fun n => { n with intfs := n.intfs ++ [intfName dn (topo.port src dst).2] })
        (fun m => rfl) _ n1 hl1
      obtain ⟨n3, hl3, he3⟩ := lookup_modify_dpIdent src d
        (fun n => { n with connection := alistInsert (intfName sn (topo.port src dst).1) (NodeRef.node dst, intfName dn (topo.port src dst).2) n.connection })
        (fun m => rfl) _ n2 hl2
      obtain ⟨n4, hl4, he4⟩ := lookup_modify_dpIdent dst d
        (fun n => { n with connection := alistInsert (intfName dn (topo.port src dst).2) (NodeRef.node src, intfName sn (topo.port src dst).1) n.connection })
        (fun m => rfl) _ n3 hl3
      exact ⟨n4, hl4, by rw [he4, he3, he2, he1]⟩

/-- The whole edge-adding loop never changes any node's datapath
identifier. -/
theorem addLinks_dpIdent (topo : Topo) :
    ∀ (el : List (Nat × Nat)) (st st' : MnState),
      Mininet.addLinks topo el st = Except.ok st' →
      ∀ (d : Nat) (n : Node), alistLookup d st.nodes = some n →
        ∃ n', alistLookup d st'.nodes = some n' ∧ n'.dpIdent = n.dpIdent := by
  intro el
  induction el with
  | nil =>
    intro st st' h d n hl
    injection h with h
    subst h
    exact ⟨n, hl, rfl⟩
  | cons e rest ih =>
    intro st st' h d n hl
    obtain ⟨s, t⟩ := e
    simp only [Mininet.addLinks] at h
    cases hlink : Mininet._add_link topo s t st with
    | error err => simp only [hlink] at h; exact absurd h (by simp)
    | ok st2 =>
      simp only [hlink] at h
      obtain ⟨n2, hl2, he2⟩ := _add_link_dpIdent topo s t st st2 hlink d n hl
      obtain ⟨n', hl', he'⟩ := ih st2 st' h d n2 hl2
      exact ⟨n', hl', by rw [he', he2]⟩

/-- Adding one switch leaves other DPIDs' registry entries unchanged. -/
theorem _add_switch_lookup_ne (cfg : MnConfig) (topo : Topo) {d d2 : Nat} (h : d ≠ d2)
    (st : MnState) :
    alistLookup d (Mininet._add_switch cfg topo d2 st).nodes = alistLookup d st.nodes := by
  by_cases hk : cfg.switch_is_kernel <;>
    simp [Mininet._add_switch, hk, alistLookup_insert_ne h]

/-- The switch-adding loop leaves DPIDs outside its list unchanged. -/
theorem addSwitches_lookup_notmem (cfg : MnConfig) (topo : Topo) :
    ∀ (l : List Nat) (st : MnState) (d : Nat), d ∉ l →
      alistLookup d (Mininet.addSwitches cfg topo l st).nodes = alistLookup d st.nodes := by
  intro l
  induction l with
  | nil => intro st d _; rfl
  | cons d0 rest ih =>
    intro st d hd
    simp only [Mininet.addSwitches]
    rw [ih _ d (fun hc => hd (List.mem_cons_of_mem d0 hc))]
    exact _add_switch_lookup_ne cfg topo
      (fun hc => hd (by rw [hc]; exact List.mem_cons_self d0 rest)) st

/-- In kernel mode each switch addition bumps the datapath counter by one. -/
theorem _add_switch_dps_kernel (cfg : MnConfig) (topo : Topo) (d : Nat) (st : MnState)
    (hk : cfg.switch_is_kernel = true) :
    (Mininet._add_switch cfg topo d st).dps = st.dps + 1 := by
  simp [Mininet._add_switch, hk]

/-- Host additions never touch the datapath counter. -/
theorem addHosts_dps (cfg : MnConfig) (topo : Topo) :
    ∀ (l : List Nat) (st : MnState), (Mininet.addHosts cfg topo l st).dps = st.dps := by
  intro l
  induction l with
  | nil => intro st; rfl
  | cons d rest ih => intro st; simp only [Mininet.addHosts]; rw [ih]; rfl

/-- In kernel mode the switch at position `k` of the iteration list ends up
bound to datapath `nl:(dps0 + k)` where `dps0` is the counter at loop
entry. -/
theorem addSwitches_dpIdent (cfg : MnConfig) (topo : Topo) (hk : cfg.switch_is_kernel = true) :
    ∀ (l : List Nat) (st : MnState) (k d : Nat), l.Nodup → l[k]? = some d →
      ∃ n, alistLookup d (Mininet.addSwitches cfg topo l st).nodes = some n ∧
        n.dpIdent = some ("nl:" ++ toString (st.dps + k)) := by
  intro l
  induction l with
  | nil => intro st k d _ h; simp at h
  | cons d0 rest ih =>
    intro st k d hnd h
    cases k with
    | zero =>
      rw [List.getElem?_cons_zero] at h
      injection h with h
      subst h
      simp only [Mininet.addSwitches]
      rw [addSwitches_lookup_notmem cfg topo rest _ d0 (List.nodup_cons.mp hnd).1]
      refine ⟨{ name := "s_" ++ topo.name d0, intfs := [], connection := [], inNamespace := cfg.in_namespace, dpIdent := some ("nl:" ++ toString st.dps) }, ?_, ?_⟩
      · unfold Mininet._add_switch
        rw [hk]
        simp only [if_true]
        exact alistLookup_insert_self d0 _ st.nodes
      · simp
    | succ m =>
      rw [List.getElem?_cons_succ] at h
      simp only [Mininet.addSwitches]
      obtain ⟨n, hl, hident⟩ :=
        ih (Mininet._add_switch cfg topo d0 st) m d (List.nodup_cons.mp hnd).2 h
      rw [_add_switch_dps_kernel cfg topo d0 st hk] at hident
      refine ⟨n, hl, ?_⟩
      rw [hident]
      have : st.dps + 1 + m = st.dps + (m + 1) := by omega
      rw [this]

/-- Claim C7: in kernel-datapath mode a successful `build` binds the `k`-th
switch (in the order switches are added) to datapath index `k`, so the
allocated indices are exactly 0, 1, 2, ... with no gaps and no reuse. -/
theorem kernel_datapath_indices_sequential :
    ∀ (cfg : MnConfig) (topo : Topo) (st : MnState),
      cfg.switch_is_kernel = true →
      (Mininet.sortNat topo.switches).Nodup →
      Mininet.build cfg topo = Except.ok st →
      ∀ (k d : Nat), (Mininet.sortNat topo.switches)[k]? = some d →
        ∃ n, alistLookup d st.nodes = some n ∧
          n.dpIdent = some ("nl:" ++ toString k) := by
  intro cfg topo st hk hnd hb k d hkd
  have hb2 : Mininet.addLinks topo (Mininet.sortEdges topo.edges)
      (Mininet.addSwitches cfg topo (Mininet.sortNat topo.switches)
        (Mininet.addHosts cfg topo (Mininet.sortNat topo.hosts)
          (Mininet._add_controller cfg
            { nodes := [], controllers := [], dps := 0, trace := [] }))) = Except.ok st := hb
  obtain ⟨n, hl, hident⟩ := addSwitches_dpIdent cfg topo hk (Mininet.sortNat topo.switches)
    (Mininet.addHosts cfg topo (Mininet.sortNat topo.hosts)
      (Mininet._add_controller cfg { nodes := [], controllers := [], dps := 0, trace := [] }))
    k d hnd hkd
  rw [addHosts_dps] at hident
  rw [show (Mininet._add_controller cfg { nodes := [], controllers := [], dps := 0, trace := [] }).dps = 0 from rfl, Nat.zero_add] at hident
  obtain ⟨n', hl', he'⟩ := addLinks_dpIdent topo (Mininet.sortEdges topo.edges) _ st hb2 d n hl
  exact ⟨n', hl', by rw [he', hident]⟩

theorem kernel_datapath_indices_sequential_witness :
    ∃ n, alistLookup 4 stEx.nodes = some n ∧ n.dpIdent = some ("nl:" ++ toString 1) :=
  kernel_datapath_indices_sequential cfgEx topoEx stEx rfl (by decide) rfl 1 4 (by decide)

/-- Wiring one link — appending the two interfaces and inserting the two
symmetric connection entries, as `_add_link` does — preserves connection-map
symmetry, provided the two interface names are fresh in their own nodes'
maps. -/
theorem linkChain_symm (src dst : Nat) (A B : String) (st st2 : MnState) (sn dn : Node)
    (hne : src ≠ dst)
    (hsn : alistLookup src st.nodes = some sn)
    (hdn : alistLookup dst st.nodes = some dn)
    (hfresh1 : alistLookup A sn.connection = none)
    (hfresh2 : alistLookup B dn.connection = none)
    (hnodes : st2.nodes = alistModify dst (fun n => { n with connection := alistInsert B (NodeRef.node src, A) n.connection }) (alistModify src (fun n => { n with connection := alistInsert A (NodeRef.node dst, B) n.connection }) (alistModify dst (fun n => { n with intfs := n.intfs ++ [B] }) (alistModify src (fun n => { n with intfs := n.intfs ++ [A] }) st.nodes))))
    (hsym : symmConn st) : symmConn st2 := by
  have hsrc' : alistLookup src st2.nodes =
      some { sn with intfs := sn.intfs ++ [A], connection := alistInsert A (NodeRef.node dst, B) sn.connection } := by
    rw [hnodes, alistLookup_modify_ne hne, alistLookup_modify_self,
      alistLookup_modify_ne hne, alistLookup_modify_self, hsn]
    rfl
  have hdst' : alistLookup dst st2.nodes =
      some { dn with intfs := dn.intfs ++ [B], connection := alistInsert B (NodeRef.node src, A) dn.connection } := by
    rw [hnodes, alistLookup_modify_self, alistLookup_modify_ne (Ne.symm hne),
      alistLookup_modify_self, alistLookup_modify_ne (Ne.symm hne), hdn]
    rfl
  have hother : ∀ c : Nat, c ≠ src → c ≠ dst → alistLookup c st2.nodes = alistLookup c st.nodes := by
    intro c hcs hcd
    rw [hnodes, alistLookup_modify_ne hcd, alistLookup_modify_ne hcs,
      alistLookup_modify_ne hcd, alistLookup_modify_ne hcs]
  have survive : ∀ (b2 : Nat) (nb : Node) (bi2 : String) (v : NodeRef × String),
      alistLookup b2 st.nodes = some nb →
      alistLookup bi2 nb.connection = some v →
      ∃ nb', alistLookup b2 st2.nodes = some nb' ∧ alistLookup bi2 nb'.connection = some v := by
    intro b2 nb bi2 v hb2 hbi2
    by_cases hbs : b2 = src
    · subst hbs
      rw [hsn] at hb2
      injection hb2 with hb2
      subst hb2
      have hbiA : bi2 ≠ A := by
        intro hc
        rw [hc, hfresh1] at hbi2
        exact Option.noConfusion hbi2
      refine ⟨_, hsrc', ?_⟩
      show alistLookup bi2 (alistInsert A (NodeRef.node dst, B) sn.connection) = some v
      rw [alistLookup_insert_ne hbiA]
      exact hbi2
    · by_cases hbd : b2 = dst
      · subst hbd
        rw [hdn] at hb2
        injection hb2 with hb2
        subst hb2
        have hbiB : bi2 ≠ B := by
          intro hc
          rw [hc, hfresh2] at hbi2
          exact Option.noConfusion hbi2
        refine ⟨_, hdst', ?_⟩
        show alistLookup bi2 (alistInsert B (NodeRef.node src, A) dn.connection) = some v
        rw [alistLookup_insert_ne hbiB]
        exact hbi2
      · refine ⟨nb, ?_, hbi2⟩
        rw [hother b2 hbs hbd]
        exact hb2
  intro a na i b bi hna hci
  by_cases has : a = src
  · subst has
    rw [hsrc'] at hna
    injection hna with hna
    subst hna
    replace hci : alistLookup i (alistInsert A (NodeRef.node dst, B) sn.connection)
        = some (NodeRef.node b, bi) := hci
    by_cases hiA : i = A
    · subst hiA
      rw [alistLookup_insert_self] at hci
      injection hci with hci
      injection hci with hc1 hc2
      injection hc1 with hc1
      subst hc1
      subst hc2
      refine ⟨_, hdst', ?_⟩
      show alistLookup B (alistInsert B (NodeRef.node a, i) dn.connection) = some (NodeRef.node a, i)
      exact alistLookup_insert_self B (NodeRef.node a, i) dn.connection
    · rw [alistLookup_insert_ne hiA] at hci
      obtain ⟨nb, hnb, hback⟩ := hsym a sn i b bi hsn hci
      exact survive b nb bi (NodeRef.node a, i) hnb hback
  · by_cases had : a = dst
    · subst had
      rw [hdst'] at hna
      injection hna with hna
      subst hna
      replace hci : alistLookup i (alistInsert B (NodeRef.node src, A) dn.connection)
          = some (NodeRef.node b, bi) := hci
      by_cases hiB : i = B
      · subst hiB
        rw [alistLookup_insert_self] at hci
        injection hci with hci
        injection hci with hc1 hc2
        injection hc1 with hc1
        subst hc1
        subst hc2
        refine ⟨_, hsrc', ?_⟩
        show alistLookup A (alistInsert A (NodeRef.node a, i) sn.connection) = some (NodeRef.node a, i)
        exact alistLookup_insert_self A (NodeRef.node a, i) sn.connection
      · rw [alistLookup_insert_ne hiB] at hci
        obtain ⟨nb, hnb, hback⟩ := hsym a dn i b bi hdn hci
        exact survive b nb bi (NodeRef.node a, i) hnb hback
    · rw [hother a has had] at hna
      obtain ⟨nb, hnb, hback⟩ := hsym a na i b bi hna hci
      exact survive b nb bi (NodeRef.node a, i) hnb hback

/-- Claim C6: after `_add_link` wires the edge (src, dst), src's connection
map sends its new interface to (dst, dst's new interface) and vice versa, and
connection-map symmetry is an invariant preserved by every link-wiring
step. -/
theorem add_link_connection_symmetry :
    ∀ (topo : Topo) (src dst : Nat) (st st' : MnState) (sn dn : Node),
      src ≠ dst →
      alistLookup src st.nodes = some sn →
      alistLookup dst st.nodes = some dn →
      alistLookup (intfName sn (topo.port src dst).1) sn.connection = none →
      alistLookup (intfName dn (topo.port src dst).2) dn.connection = none →
      Mininet._add_link topo src dst st = Except.ok st' →
      (∃ sn' dn',
        alistLookup src st'.nodes = some sn' ∧
        alistLookup dst st'.nodes = some dn' ∧
        alistLookup (intfName sn (topo.port src dst).1) sn'.connection =
          some (NodeRef.node dst, intfName dn (topo.port src dst).2) ∧
        alistLookup (intfName dn (topo.port src dst).2) dn'.connection =
          some (NodeRef.node src, intfName sn (topo.port src dst).1)) ∧
      (symmConn st → symmConn st') := by
  intro topo src dst st st' sn dn hne hsn hdn hfresh1 hfresh2 hlink
  simp only [Mininet._add_link, hsn, hdn] at hlink
  injection hlink with hlink
  subst hlink
  constructor
  · refine ⟨{ sn with intfs := sn.intfs ++ [intfName sn (topo.port src dst).1], connection := alistInsert (intfName sn (topo.port src dst).1) (NodeRef.node dst, intfName dn (topo.port src dst).2) sn.connection }, { dn with intfs := dn.intfs ++ [intfName dn (topo.port src dst).2], connection := alistInsert (intfName dn (topo.port src dst).2) (NodeRef.node src, intfName sn (topo.port src dst).1) dn.connection }, ?_, ?_, ?_, ?_⟩
    · show alistLookup src (alistModify dst _ (alistModify src _ (alistModify dst _ (alistModify src _ st.nodes)))) = _
      rw [alistLookup_modify_ne hne, alistLookup_modify_self,
        alistLookup_modify_ne hne, alistLookup_modify_self, hsn]
      rfl
    · show alistLookup dst (alistModify dst _ (alistModify src _ (alistModify dst _ (alistModify src _ st.nodes)))) = _
      rw [alistLookup_modify_self, alistLookup_modify_ne (Ne.symm hne),
        alistLookup_modify_self, alistLookup_modify_ne (Ne.symm hne), hdn]
      rfl
    · exact alistLookup_insert_self _ _ sn.connection
    · exact alistLookup_insert_self _ _ dn.connection
  · intro hsym
    exact linkChain_symm src dst (intfName sn (topo.port src dst).1)
      (intfName dn (topo.port src dst).2) st _ sn dn hne hsn hdn hfresh1 hfresh2 rfl hsym

theorem add_link_connection_symmetry_witness :
    ∃ sn' dn',
      alistLookup 1 stLinkEx'.nodes = some sn' ∧
      alistLookup 2 stLinkEx'.nodes = some dn' ∧
      alistLookup (intfName (nodeEx 1) (topoEx.port 1 2).1) sn'.connection =
        some (NodeRef.node 2, intfName (nodeEx 2) (topoEx.port 1 2).2) ∧
      alistLookup (intfName (nodeEx 2) (topoEx.port 1 2).2) dn'.connection =
        some (NodeRef.node 1, intfName (nodeEx 1) (topoEx.port 1 2).1) :=
  (add_link_connection_symmetry topoEx 1 2 stLinkEx stLinkEx' (nodeEx 1) (nodeEx 2)
    (by decide) rfl rfl rfl rfl rfl).1
